import Mathlib

/-!
# Verification of the ARM64 logical-immediate bitmask decoder

Shallow embedding of `src/main.c`: the bit primitives (`arm64_is_bit_set`,
`arm64_highest_set_bit`, `arm64_ones`, `arm64_replicate`, `arm64_ror`), the
bitmask decoder `arm64_disasm_bit_masks` and the predicate
`arm64_move_wide_preferred`.

Modelling conventions:
* C unsigned integers become `Nat` with explicit reduction `% 2^32` / `% 2^64`
  at the operations where C truncates.
* A C left shift on `uint64_t` is modelled by its value semantics
  `(v <<< n) % 2^64` (i.e. `v * 2^n mod 2^64`); in particular a shift count
  equal to the word width, which C leaves undefined, is given the mod-2^64
  value (`1 <<< 64 % 2^64 = 0`), matching the mathematical reading of the
  reference algorithm.
* The C `for` loop of `arm64_replicate` is modelled with an explicit fuel of
  64 iterations; with `esize ≥ 1` and `bit_count ≤ 64` (true at every call
  site) the loop performs strictly fewer than 64 iterations, so the fuelled
  version computes exactly the C loop.
* The decoder's out-parameter `*wmask` is modelled twice: as an
  `Option Nat` result (`arm64_disasm_bit_masks`) and, to reason about the
  out-parameter discipline itself, as a state-passing function
  `arm64_disasm_bit_masks_c` returning the flag together with the final
  contents of the caller's `wmask` variable. A bridging lemma shows the two
  agree.
-/

/-- C `arm64_is_bit_set`: bit `bit` (0 = lsb) of `value`, as C truthiness of
`(value >> bit) & 0x1`. -/
def arm64_is_bit_set (value bit : Nat) : Bool :=
  ((value >>> bit) &&& 0x1) != 0

/-- The loop of C `arm64_highest_set_bit`, scanning from bit `i` down to 0;
returns the first set bit index found, else -1. -/
def arm64_highest_set_bit_from (value : Nat) : Nat → Int
  | 0 => if arm64_is_bit_set value 0 then 0 else -1
  | i + 1 => if arm64_is_bit_set value (i + 1) then (i + 1 : Nat) else arm64_highest_set_bit_from value i

/-- C `arm64_highest_set_bit`: index of the most significant set bit of a
64-bit `value`, scanning from bit 63 down to bit 0; -1 when `value = 0`. -/
def arm64_highest_set_bit (value : Nat) : Int :=
  arm64_highest_set_bit_from value 63

/-- C `arm64_ones`: `(1ULL << length) - 1` in `uint64_t` arithmetic
(the subtraction wraps modulo `2^64`, written additively on `Nat`). -/
def arm64_ones (length : Nat) : Nat :=
  ((1 <<< length) % 2^64 + (2^64 - 1)) % 2^64

/-- The loop of C `arm64_replicate`:
`for (set_bits = esize; set_bits < bit_count; set_bits += esize)
   { value <<= esize; result |= value; }`
with explicit fuel (see the module comment). -/
def arm64_replicate_loop : Nat → Nat → Nat → Nat → Nat → Nat → Nat
  | 0, _, result, _, _, _ => result
  | fuel + 1, value, result, esize, set_bits, bit_count =>
    if set_bits < bit_count then
      arm64_replicate_loop fuel ((value <<< esize) % 2^64)
        (result ||| ((value <<< esize) % 2^64)) esize (set_bits + esize) bit_count
    else
      result

/-- C `arm64_replicate`: replicates the low `esize` bits of `value` until
`bit_count` bits are produced. -/
def arm64_replicate (value esize bit_count : Nat) : Nat :=
  arm64_replicate_loop 64 value value esize esize bit_count

/-- C `arm64_ror`: circular right shift of the low `width` bits of `value`.
`left_shift = width - shift_count` is `uint32_t` arithmetic; every call in
this program has `shift_count ≤ width`, where the `Nat` subtraction agrees
with C. -/
def arm64_ror (value shift_count width : Nat) : Nat :=
  let right_shift := shift_count
  let left_shift := width - shift_count
  let result := (value >>> right_shift) ||| ((value <<< left_shift) % 2^64)
  if width < 64 then result &&& arm64_ones width else result

/-- C `arm64_disasm_bit_masks`, result modelled as `Option Nat`
(`none` = the C function returns `false`, i.e. UNDEFINED;
`some w` = it returns `true` having stored `w` in `*wmask`).
`~imms` on `uint32_t` is complement within 32 bits, i.e. xor with `2^32 - 1`. -/
def arm64_disasm_bit_masks (n imms immr : Nat) (logical_imm : Bool) : Option Nat :=
  let length := arm64_highest_set_bit
    (((n <<< 6) % 2^32) ||| (((imms % 2^32) ^^^ (2^32 - 1)) &&& 0x3F))
  if length < 1 then
    none
  else
    let levels := arm64_ones length.toNat % 2^32
    if logical_imm = true ∧ (imms &&& levels) = levels then
      none
    else
      let s := imms &&& levels
      let r := immr &&& levels
      let esize := 1 <<< length.toNat
      let welem := arm64_ones (s + 1)
      let wmask := arm64_ror welem r esize
      some (arm64_replicate wmask esize 64)

/-- C `arm64_disasm_bit_masks`, modelled with the caller's `wmask` variable
passed through explicitly: the result is the returned flag together with the
final contents of the variable the out-parameter points to. -/
def arm64_disasm_bit_masks_c (n imms immr : Nat) (logical_imm : Bool)
    (wmask : Nat) : Bool × Nat :=
  let length := arm64_highest_set_bit
    (((n <<< 6) % 2^32) ||| (((imms % 2^32) ^^^ (2^32 - 1)) &&& 0x3F))
  if length < 1 then
    (false, wmask)
  else
    let levels := arm64_ones length.toNat % 2^32
    if logical_imm = true ∧ (imms &&& levels) = levels then
      (false, wmask)
    else
      let s := imms &&& levels
      let r := immr &&& levels
      let esize := 1 <<< length.toNat
      let welem := arm64_ones (s + 1)
      let wmask1 := arm64_ror welem r esize
      (true, arm64_replicate wmask1 esize 64)

/-- C `arm64_move_wide_preferred`. The two comparisons are C `uint32_t`
comparisons: in `-immr % 16 <= 15 - imms` the negation is unsigned
(`(2^32 - immr) mod 2^32`) and `15 - imms` is exact because the branch has
`imms < 16`; in `immr % 16 <= imms - width - 15` the right-hand side wraps
modulo `2^32`, written additively on `Nat` (`imms + 2^32 ≥ width + 15`). -/
def arm64_move_wide_preferred (sf immn imms immr : Nat) : Bool :=
  let width := if sf = 1 then 64 else 32
  if sf = 1 ∧ immn ≠ 1 then
    false
  else if sf = 0 ∧ (immn ≠ 0 ∨ arm64_is_bit_set imms 6 = true) then
    false
  else if imms < 16 then
    decide (((2^32 - immr % 2^32) % 2^32) % 16 ≤ 15 - imms)
  else if width - 15 ≤ imms then
    decide (immr % 16 ≤ (imms % 2^32 + 2^32 - width - 15) % 2^32)
  else
    false

/-! ## Spec-side definitions

The following definitions transcribe the formulas of the specification's
claims (mathematical `Ones`, `RotateRight`, `Replicate` and the `wmask`
formula of §4.2), to be compared with the code-derived functions above. -/

/-- Spec `Ones(length) = (1 << length) - 1`, read mathematically. -/
def specOnes (length : Nat) : Nat := 2^length - 1

/-- Spec `RotateRight(value, shift, width)`: circular right rotation of the
low `width` bits; all bits at position ≥ `width` are cleared. -/
def specRotateRight (v r width : Nat) : Nat :=
  (((v % 2^width) >>> r) ||| ((v % 2^width) <<< (width - r))) % 2^width

/-- `specReplicateAux v esize k`: `k` copies of the low `esize` bits of `v`,
tiled from bit 0 upward. -/
def specReplicateAux (v esize : Nat) : Nat → Nat
  | 0 => 0
  | k + 1 => ((v % 2^esize) <<< (k * esize)) ||| specReplicateAux v esize k

/-- Spec `Replicate(value, esize, total)`: the low `esize` bits of `value`
repeated until `total` bits are filled (`esize` divides `total` in valid use). -/
def specReplicate (v esize total : Nat) : Nat :=
  specReplicateAux v esize (total / esize)

/-- Spec `length = HighestSetBit((N << 6) | (NOT(imms) & 0x3F))`, for a 6-bit
`imms` (so `NOT(imms) & 0x3F = imms XOR 63`). -/
def spec_length (n imms : Nat) : Int :=
  arm64_highest_set_bit ((n <<< 6) ||| ((imms ^^^ 63) &&& 0x3F))

/-- Spec §4.2 `wmask` formula:
`Replicate(RotateRight(Ones(s+1), r, esize), esize, 64)` with
`levels = Ones(length)`, `s = imms & levels`, `r = immr & levels`,
`esize = 1 << length`. -/
def spec_wmask (n imms immr : Nat) : Nat :=
  let length := (spec_length n imms).toNat
  let levels := specOnes length
  let s := imms &&& levels
  let r := immr &&& levels
  let esize := 2^length
  specReplicate (specRotateRight (specOnes (s + 1)) r esize) esize 64

/-! ## Helper lemmas -/

/-- For `k < 64` the C `arm64_ones` computes the mathematical `2^k - 1`. -/
theorem arm64_ones_eq_of_lt {k : Nat} (h : k < 64) : arm64_ones k = 2^k - 1 := by
  unfold arm64_ones
  rw [Nat.shiftLeft_eq, Nat.one_mul]
  have h1 : 2^k < 2^64 := Nat.pow_lt_pow_right (by omega) h
  have h2 : 0 < 2^k := Nat.pos_pow_of_pos k (by omega)
  rw [Nat.mod_eq_of_lt h1]
  rw [show 2^k + (2^64 - 1) = 2^64 + (2^k - 1) by omega, Nat.add_mod_left]
  exact Nat.mod_eq_of_lt (by omega)

/-- At the undefined shift count 64, the modelled `arm64_ones` yields the
all-ones 64-bit word. -/
theorem arm64_ones_64 : arm64_ones 64 = 2^64 - 1 := by decide

/-- The replicate loop returns `result` unchanged when the loop condition
fails at entry. -/
theorem arm64_replicate_loop_stop (fuel value result esize set_bits bit_count : Nat)
    (h : ¬ set_bits < bit_count) :
    arm64_replicate_loop fuel value result esize set_bits bit_count = result := by
  cases fuel <;> simp [arm64_replicate_loop, h]

/-- The out-parameter model agrees with the `Option` model of the decoder. -/
theorem arm64_disasm_bit_masks_c_eq (n imms immr : Nat) (lc : Bool) (w : Nat) :
    arm64_disasm_bit_masks_c n imms immr lc w =
      match arm64_disasm_bit_masks n imms immr lc with
      | none => (false, w)
      | some m => (true, m) := by
  simp only [arm64_disasm_bit_masks_c, arm64_disasm_bit_masks]
  split_ifs <;> rfl

/-- Whether the decoder fails does not depend on `immr`. -/
theorem arm64_disasm_bit_masks_none_immr (n imms immr : Nat) (lc : Bool) :
    (arm64_disasm_bit_masks n imms immr lc = none ↔
      arm64_disasm_bit_masks n imms 0 lc = none) := by
  simp only [arm64_disasm_bit_masks]
  split_ifs <;> simp

/-- A successful decode under any `logical_imm` flag yields the same value as
under `logical_imm = false`. -/
theorem arm64_disasm_bit_masks_some_lc {n imms immr m : Nat} {lc : Bool}
    (hm : arm64_disasm_bit_masks n imms immr lc = some m) :
    arm64_disasm_bit_masks n imms immr false = some m := by
  cases lc
  · exact hm
  · simp only [arm64_disasm_bit_masks] at hm ⊢
    split_ifs at hm ⊢ <;> simp_all

/-! ## Claim theorems -/

/-- C3 counterexample: at `sf = 1, immN = 1, imms = 49, immr = 15` the code
returns true although `immr mod 16 = 15` is not `≤ imms - width - 15 = -30`,
so "returns true exactly when `immr mod 16 ≤ imms - width - 15`" (read over
the integers) is false on the code. -/
theorem move_wide_preferred_movn_formula_counterexample :
    ¬ (arm64_move_wide_preferred 1 1 49 15 = true ↔
        ((15 : Int) % 16 ≤ 49 - 64 - 15)) := by decide

set_option synthInstance.maxSize 2048 in
/-- C3 (amended): in the MOVN-range branch the comparison is evaluated in
32-bit unsigned arithmetic, so for every `(sf, immN, imms, immr)` passing the
element-size check with `imms ≥ width - 15`, `move_wide_preferred` returns
true exactly when `immr mod 16 ≤ (imms - width - 15) mod 2^32`. -/
theorem move_wide_preferred_movn_formula_unsigned :
    ∀ sf < 2, ∀ immn < 2, ∀ imms < 64, ∀ immr < 64,
      ((sf = 1 ∧ immn = 1) ∨ (sf = 0 ∧ immn = 0 ∧ arm64_is_bit_set imms 6 = false)) →
      (if sf = 1 then 64 else 32) - 15 ≤ imms →
      (arm64_move_wide_preferred sf immn imms immr = true ↔
        immr % 16 ≤ (imms + 2^32 - (if sf = 1 then 64 else 32) - 15) % 2^32) := by
  decide

/-- Witness for C3 (amended) at `sf = 0, immN = 0, imms = 50, immr = 3`. -/
theorem move_wide_preferred_movn_formula_unsigned_witness :
    arm64_move_wide_preferred 0 0 50 3 = true ↔
      3 % 16 ≤ (50 + 2^32 - 32 - 15) % 2^32 :=
  move_wide_preferred_movn_formula_unsigned 0 (by decide) 0 (by decide)
    50 (by decide) 3 (by decide) (Or.inr ⟨rfl, rfl, by decide⟩) (by decide)

/-- C4 counterexample: decoding `N = 1, imms = 28, immr = 0` does not give
the spec's stated value `0x0000000FFFFFFFFF`. -/
theorem decode_bitmask_scenario1_counterexample :
    ¬ (arm64_disasm_bit_masks 1 28 0 true = some 0x0000000FFFFFFFFF) := by decide

/-- C4 (amended): `decode_bitmask(N=1, imms=28, immr=0, logical_context=true)`
succeeds and returns `wmask = 0x000000001FFFFFFF` (a run of `s+1 = 29` ones). -/
theorem decode_bitmask_scenario1_value :
    arm64_disasm_bit_masks 1 28 0 true = some 0x000000001FFFFFFF := by decide

/-- C5 counterexample: `Replicate(2, 1, 1) = 2` but `2 & Ones(1) = 0`, so the
identity `Replicate(v, esize, esize) == v & Ones(esize)` fails on the code
(the code's replicate never masks its input). -/
theorem replicate_identity_counterexample :
    ¬ (arm64_replicate 2 1 1 = 2 &&& arm64_ones 1) := by decide

/-- C5 (amended): `Replicate(v, esize, esize) = v` for every `v` and `esize`:
with `bit_count = esize` the replication loop performs no iteration, so the
value is returned unmasked (it equals `v & Ones(esize)` only when `v` has no
bits at positions ≥ `esize`). -/
theorem replicate_same_width_identity (v esize : Nat) :
    arm64_replicate v esize esize = v :=
  arm64_replicate_loop_stop 64 v v esize esize esize (Nat.lt_irrefl esize)

/-- C6: `RotateRight(v, 0, width) = v & Ones(width)` for every 64-bit `v`
and every `width` with `1 ≤ width ≤ 64`. -/
theorem ror_zero_identity (v width : Nat) (hv : v < 2^64)
    (h1 : 1 ≤ width) (h2 : width ≤ 64) :
    arm64_ror v 0 width = v &&& arm64_ones width := by
  unfold arm64_ror
  simp only [Nat.sub_zero, Nat.shiftRight_zero]
  by_cases h : width < 64
  · rw [if_pos h, arm64_ones_eq_of_lt h]
    apply Nat.eq_of_testBit_eq
    intro i
    simp only [Nat.testBit_and, Nat.testBit_or, Nat.testBit_mod_two_pow,
      Nat.testBit_shiftLeft, Nat.testBit_two_pow_sub_one]
    by_cases hi : i < width
    · have hw : ¬ width ≤ i := by omega
      simp [hi, hw]
    · simp [hi]
  · have hw : width = 64 := by omega
    subst hw
    rw [if_neg h]
    have h0 : (v <<< 64) % 2^64 = 0 := by
      rw [Nat.shiftLeft_eq]
      exact Nat.mul_mod_left v (2^64)
    rw [h0, Nat.or_zero, arm64_ones_64, Nat.and_pow_two_sub_one_eq_mod]
    exact (Nat.mod_eq_of_lt hv).symm

/-- Witness for C6 at `v = 5, width = 4`. -/
theorem ror_zero_identity_witness :
    (5 : Nat) < 2^64 ∧ arm64_ror 5 0 4 = 5 &&& arm64_ones 4 :=
  ⟨by decide, ror_zero_identity 5 4 (by decide) (by decide) (by decide)⟩

set_option synthInstance.maxSize 2048 in
/-- C7: in the MOVZ-range branch (`imms < 16`, element-size check passed),
`move_wide_preferred` returns true exactly when
`(-immr) mod 16 ≤ 15 - imms` (mathematical mod); in particular at
`sf = 1, immN = 1, imms = 0` it returns true for every `immr`. -/
theorem move_wide_preferred_movz_formula :
    ∀ sf < 2, ∀ immn < 2, ∀ imms < 64, ∀ immr < 64,
      ((sf = 1 ∧ immn = 1) ∨ (sf = 0 ∧ immn = 0 ∧ arm64_is_bit_set imms 6 = false)) →
      imms < 16 →
      (arm64_move_wide_preferred sf immn imms immr = true ↔
        (-(immr : Int)) % 16 ≤ 15 - (imms : Int)) := by
  decide

/-- Witness for C7 at `sf = 1, immN = 1, imms = 0, immr = 37`. -/
theorem move_wide_preferred_movz_formula_witness :
    arm64_move_wide_preferred 1 1 0 37 = true :=
  (move_wide_preferred_movz_formula 1 (by decide) 1 (by decide) 0 (by decide)
    37 (by decide) (Or.inl ⟨rfl, rfl⟩) (by decide)).mpr (by decide)

/-- C8: `move_wide_preferred` returns false whenever the element size implied
by `immN:imms` does not equal the total width: for `sf = 1` whenever
`immN ≠ 1`, and for `sf = 0` whenever `immN ≠ 0` or bit 6 of `imms` is set
(so in particular `sf = 0, immN = 1` is rejected for all `imms`, `immr`). -/
theorem move_wide_preferred_size_check_reject (immn imms immr : Nat) :
    (immn ≠ 1 → arm64_move_wide_preferred 1 immn imms immr = false) ∧
    ((immn ≠ 0 ∨ arm64_is_bit_set imms 6 = true) →
      arm64_move_wide_preferred 0 immn imms immr = false) := by
  constructor
  · intro h
    simp [arm64_move_wide_preferred, h]
  · intro h
    rcases h with h | h <;> simp [arm64_move_wide_preferred, h]

/-- Witness for C8 at `sf = 0, immN = 1`. -/
theorem move_wide_preferred_size_check_reject_witness :
    arm64_move_wide_preferred 0 1 9 23 = false :=
  (move_wide_preferred_size_check_reject 1 9 23).2 (Or.inl (by decide))

/-- C9: when the decoder fails (returns UNDEFINED) it never writes through
the `wmask` out-parameter: the caller's value is preserved. -/
theorem decode_bitmask_failure_preserves_wmask (n imms immr : Nat) (lc : Bool)
    (w : Nat) (h : (arm64_disasm_bit_masks_c n imms immr lc w).fst = false) :
    (arm64_disasm_bit_masks_c n imms immr lc w).snd = w := by
  simp only [arm64_disasm_bit_masks_c] at h ⊢
  split_ifs at h ⊢ <;> simp_all

/-- Witness for C9 at the failing input `N = 0, imms = 63` with caller value
`12345`. -/
theorem decode_bitmask_failure_preserves_wmask_witness :
    (arm64_disasm_bit_masks_c 0 63 0 true 12345).snd = 12345 :=
  decode_bitmask_failure_preserves_wmask 0 63 0 true 12345 (by decide)

set_option maxRecDepth 10000 in
set_option maxHeartbeats 4000000 in
/-- C1: for every `N ∈ {0,1}`, `imms, immr ∈ [0,63]` and `logical_context`
flag for which the decoder succeeds, the returned `wmask` equals the spec
formula `Replicate(RotateRight(Ones(s+1), r, esize), esize, 64)` (with
`length`, `levels`, `s`, `r`, `esize` as in the spec) — the full 64-bit
tiled pattern, even when `N = 0`. -/
theorem decode_bitmask_wmask_matches_spec_formula :
    ∀ n < 2, ∀ imms < 64, ∀ immr < 64, ∀ lc : Bool, ∀ m : Nat,
      arm64_disasm_bit_masks n imms immr lc = some m →
      m = spec_wmask n imms immr := by
  have H : ∀ n < 2, ∀ imms < 64, ∀ immr < 64,
      (arm64_disasm_bit_masks n imms immr false).getD (spec_wmask n imms immr)
        = spec_wmask n imms immr := by decide
  intro n hn imms hi immr hr lc m hm
  have hf := arm64_disasm_bit_masks_some_lc hm
  have h2 := H n hn imms hi immr hr
  rw [hf] at h2
  simpa using h2

/-- Witness for C1 at `N = 1, imms = 28, immr = 3, logical_context = true`
(decoded value `0xE000000003FFFFFF`). -/
theorem decode_bitmask_wmask_matches_spec_formula_witness :
    (0xE000000003FFFFFF : Nat) = spec_wmask 1 28 3 :=
  decode_bitmask_wmask_matches_spec_formula 1 (by decide) 28 (by decide)
    3 (by decide) true 0xE000000003FFFFFF (by decide)

set_option maxRecDepth 10000 in
set_option maxHeartbeats 4000000 in
/-- C2: for every `N ∈ {0,1}` and `imms, immr ∈ [0,63]`, the decoder returns
UNDEFINED iff `length = HighestSetBit((N << 6) | (NOT(imms) & 0x3F)) < 1`, or
`logical_context` is true and `imms & Ones(length) = Ones(length)`; there is
no other failure mode, and the all-ones rejection is independent of `immr`. -/
theorem decode_bitmask_undefined_iff :
    ∀ n < 2, ∀ imms < 64, ∀ immr < 64, ∀ lc : Bool,
      (arm64_disasm_bit_masks n imms immr lc = none ↔
        (spec_length n imms < 1 ∨
          (lc = true ∧
            imms &&& specOnes (spec_length n imms).toNat
              = specOnes (spec_length n imms).toNat))) := by
  have H : ∀ n < 2, ∀ imms < 64, ∀ lc : Bool,
      (arm64_disasm_bit_masks n imms 0 lc = none ↔
        (spec_length n imms < 1 ∨
          (lc = true ∧
            imms &&& specOnes (spec_length n imms).toNat
              = specOnes (spec_length n imms).toNat))) := by decide
  intro n hn imms hi immr hr lc
  rw [arm64_disasm_bit_masks_none_immr]
  exact H n hn imms hi lc

/-- Witness for C2 at the failing input `N = 0, imms = 63, immr = 7`. -/
theorem decode_bitmask_undefined_iff_witness :
    (arm64_disasm_bit_masks 0 63 7 true = none ↔
      (spec_length 0 63 < 1 ∨
        (true = true ∧
          63 &&& specOnes (spec_length 0 63).toNat
            = specOnes (spec_length 0 63).toNat))) :=
  decode_bitmask_undefined_iff 0 (by decide) 63 (by decide) 7 (by decide) true

set_option maxRecDepth 10000 in
set_option maxHeartbeats 4000000 in
/-- C10: every successfully decoded `wmask` is nonzero, and when
`logical_context` is true it is never the all-ones 64-bit word. -/
theorem decode_bitmask_success_wmask_invariants :
    ∀ n < 2, ∀ imms < 64, ∀ immr < 64, ∀ lc : Bool, ∀ m : Nat,
      arm64_disasm_bit_masks n imms immr lc = some m →
      m ≠ 0 ∧ (lc = true → m ≠ 2^64 - 1) := by
  have H : ∀ n < 2, ∀ imms < 64, ∀ immr < 64, ∀ lc : Bool,
      ((arm64_disasm_bit_masks n imms immr lc).getD 1 ≠ 0 ∧
        (lc = true →
          (arm64_disasm_bit_masks n imms immr lc).getD 1 ≠ 2^64 - 1)) := by
    decide
  intro n hn imms hi immr hr lc m hm
  have h2 := H n hn imms hi immr hr lc
  rw [hm] at h2
  simpa using h2

/-- Witness for C10 at `N = 0, imms = 0, immr = 0, logical_context = true`
(decoded value `0x100000001`). -/
theorem decode_bitmask_success_wmask_invariants_witness :
    (4294967297 : Nat) ≠ 0 ∧ (true = true → (4294967297 : Nat) ≠ 2^64 - 1) :=
  decode_bitmask_success_wmask_invariants 0 (by decide) 0 (by decide)
    0 (by decide) true 4294967297 (by decide)
